import Mathlib

/-!
Shallow embedding of `server.js` from the video-server repository: a
local-network media server that lists media files (`GET /api/videos`)
and streams them with HTTP Range support (`GET /api/stream/:name`).

Pure computation is translated directly from the source.  Filesystem
interaction is modelled by explicit oracle arguments (`fs : String →
FsFile` answering the handler's `stat`/read of a path, `ReaddirResult`
answering a `readdir` of a media root) together with an explicit log of
the filesystem operations the handler performs, so that "no file access
performed" is a statement about the log.
-/

namespace VideoServer

/-- Model of Node `path.posix.basename` (no extension argument): drop
trailing `/` separators, then keep the maximal suffix free of `/`.
Mirrors the scan in Node's `lib/path.js` (`basename`), including
`basename "/" = ""` and `basename "" = ""`. -/
def nodeBasename (s : String) : String :=
  ⟨(((s.data.reverse).dropWhile (fun c => c == '/')).takeWhile (fun c => c != '/')).reverse⟩

/-- Index of the last `'.'` in a list of characters, if any. -/
def lastDotIdx (l : List Char) : Option Nat :=
  match (l.reverse).findIdx? (fun c => c == '.') with
  | some i => some (l.length - 1 - i)
  | none => none

/-- Model of Node `path.posix.extname`: examine the final path component
(as computed by `nodeBasename`); return the suffix from its last dot,
except that a dot in first position yields `""` (hidden files such as
`".bashrc"`), as does the component `".."`.  This is the input/output
behaviour of the scan in Node's `lib/path.js` (`extname`). -/
def nodeExtname (s : String) : String :=
  let b := (nodeBasename s).data
  match lastDotIdx b with
  | none => ""
  | some j => if j = 0 ∨ b = ['.', '.'] then "" else ⟨b.drop j⟩

/-- ASCII lower-casing of a string, modelling `String.prototype.toLowerCase`
on the ASCII extension strings the server compares. -/
def lowerStr (s : String) : String :=
  ⟨s.data.map Char.toLower⟩

/-- `VIDEOS_DIR` of `server.js` (`path.join(__dirname, "videos")`,
with `__dirname` taken as the process root). -/
def VIDEOS_DIR : String := "videos"

/-- `PICTURES_DIR` of `server.js`. -/
def PICTURES_DIR : String := "pictures"

/-- `VIDEO_EXTENSIONS` of `server.js`. -/
def VIDEO_EXTENSIONS : List String := [".mp4", ".webm"]

/-- `IMAGE_EXTENSIONS` of `server.js`. -/
def IMAGE_EXTENSIONS : List String := [".jpg", ".jpeg"]

/-- `ALLOWED_EXTENSIONS = new Set([...VIDEO_EXTENSIONS, ...IMAGE_EXTENSIONS])`. -/
def ALLOWED_EXTENSIONS : List String := VIDEO_EXTENSIONS ++ IMAGE_EXTENSIONS

/-- `getContentType` of `server.js`. -/
def getContentType (fileName : String) : String :=
  let ext := lowerStr (nodeExtname fileName)
  if ext = ".mp4" then "video/mp4"
  else if ext = ".webm" then "video/webm"
  else if ext = ".jpg" ∨ ext = ".jpeg" then "image/jpeg"
  else "application/octet-stream"

/-- `parseInt(digits, 10)` on a string of decimal digits (the regex
capture groups below only ever hold digit characters). -/
def parseDigits (s : String) : Nat :=
  s.data.foldl (fun acc c => acc * 10 + (c.toNat - 48)) 0

/-- Attempt to match the JavaScript regex `bytes=(\d+)-(\d*)` at the
start of the character list: the literal `bytes=`, a maximal nonempty
run of digits (group 1), a `-`, then a maximal (possibly empty) run of
digits (group 2).  Greedy `\d+`/`\d*` cannot backtrack here because a
digit never matches `-`, so this is the regex's exact behaviour at one
position. -/
def matchRangeAt : List Char → Option (String × String)
  | 'b' :: 'y' :: 't' :: 'e' :: 's' :: '=' :: rest =>
    let d1 := rest.takeWhile Char.isDigit
    if d1 = [] then none
    else
      match rest.dropWhile Char.isDigit with
      | '-' :: rest2 => some (⟨d1⟩, ⟨rest2.takeWhile Char.isDigit⟩)
      | _ => none
  | _ => none

/-- Unanchored regex search, as `String.prototype.match` performs it:
try each start position from the left, returning the first match. -/
def findRangeAux : List Char → Option (String × String)
  | [] => none
  | c :: rest =>
    match matchRangeAt (c :: rest) with
    | some g => some g
    | none => findRangeAux rest

/-- `range.match(/bytes=(\d+)-(\d*)/)` of `server.js`, returning the two
capture groups on success. -/
def rangeMatch (s : String) : Option (String × String) :=
  findRangeAux s.data

/-- Answer of the filesystem for one path, as observed through
`fsp.stat` + `fs.createReadStream`: a present file with its byte
content, an absent file (`ENOENT`), or any other I/O error. -/
inductive FsFile where
  | present (content : List Nat)
  | absent
  | ioErr
deriving DecidableEq, Repr

/-- A filesystem operation performed by the stream handler: the
`fsp.stat(videoPath)` call, or opening a read stream on the path. -/
inductive FsOp where
  | statOp (p : String)
  | openOp (p : String)
deriving DecidableEq, Repr

/-- A successful (2xx) response of the stream endpoint: status line,
the headers `res.writeHead` sets, and the streamed body bytes. -/
structure OkResponse where
  status : Nat
  contentRange : Option String
  acceptRanges : Option String
  contentLength : Nat
  contentType : String
  body : List Nat
deriving DecidableEq, Repr

/-- Outcome of one request to `GET /api/stream/:name`: an error status
with its message (`res.status(s).send(msg)`), or a streamed response. -/
inductive StreamResult where
  | err (status : Nat) (msg : String)
  | success (r : OkResponse)
deriving DecidableEq, Repr

/-- Status code of a `StreamResult`. -/
def respStatus : StreamResult → Nat
  | .err s _ => s
  | .success r => r.status

/-- Body bytes of a `StreamResult` (errors stream no file bytes). -/
def respBody : StreamResult → List Nat
  | .err _ _ => []
  | .success r => r.body

/-- `const baseDir = VIDEO_EXTENSIONS.has(ext) ? VIDEOS_DIR : PICTURES_DIR;
const videoPath = path.join(baseDir, safeName);` — for a slash-free
`safeName`, `path.join` is directory, separator, name. -/
def mediaPathOf (safeName : String) : String :=
  (if VIDEO_EXTENSIONS.contains (lowerStr (nodeExtname safeName)) then VIDEOS_DIR
   else PICTURES_DIR) ++ "/" ++ safeName

/-- The no-range branch of the handler: `res.writeHead(200, ...)` then
`fs.createReadStream(videoPath).pipe(res)` — the whole file. -/
def fullResponse (videoPath : String) (content : List Nat) (contentType : String) :
    StreamResult × List FsOp :=
  (.success ⟨200, none, none, content.length, contentType, content⟩,
   [.statOp videoPath, .openOp videoPath])

/-- The range branch of the handler (`if (range) { ... }` body), for a
nonempty header value `range`: regex match, `parseInt` of the capture
groups (`end` defaulting to `fileSize - 1`, computed in `Int` because
JavaScript numbers go negative for an empty file), the three-way bounds
check, then `res.writeHead(206, ...)` and
`fs.createReadStream(videoPath, { start, end })`, which streams the
inclusive slice `[start, end]` of the file. -/
def rangeResponse (videoPath : String) (content : List Nat) (contentType : String)
    (range : String) : StreamResult × List FsOp :=
  match rangeMatch range with
  | none => (.err 416 "Malformed Range header.", [.statOp videoPath])
  | some (g1, g2) =>
    let fileSize := content.length
    let rstart : Int := (parseDigits g1 : Int)
    let rend : Int := if g2 = "" then (fileSize : Int) - 1 else (parseDigits g2 : Int)
    if rstart ≥ (fileSize : Int) ∨ rend ≥ (fileSize : Int) ∨ rstart > rend then
      (.err 416 "Requested range not satisfiable.", [.statOp videoPath])
    else
      let s := rstart.toNat
      let e := rend.toNat
      let chunkSize := e - s + 1
      (.success ⟨206, some s!"bytes {s}-{e}/{fileSize}", some "bytes", chunkSize,
                 contentType, (content.drop s).take chunkSize⟩,
       [.statOp videoPath, .openOp videoPath])

/-- The `GET /api/stream/:name` handler of `server.js`, over the decoded
request name, the value of the `Range` header (`none` when absent), and
the filesystem oracle.  Returns the response together with the log of
filesystem operations performed.  `if (range)` in JavaScript is false
for both a missing header and an empty header value, so `some ""` takes
the full-file branch.  This handler is the projection of
`streamHandlerOpen` below onto runs in which the `createReadStream`
open succeeds (`streamHandlerOpen_opened`): it is the right semantics
for claims conditioned on an existing readable file, while claims about
open-time failures use `streamHandlerOpen`. -/
def streamHandler (requestedName : String) (rangeHeader : Option String)
    (fs : String → FsFile) : StreamResult × List FsOp :=
  let safeName := nodeBasename requestedName
  if safeName ≠ requestedName then (.err 400 "Invalid file name.", [])
  else if ¬ ALLOWED_EXTENSIONS.contains (lowerStr (nodeExtname safeName)) then
    (.err 415 "Unsupported media type.", [])
  else
    let videoPath := mediaPathOf safeName
    match fs videoPath with
    | .absent => (.err 404 "Not found.", [.statOp videoPath])
    | .ioErr => (.err 500 "Server error.", [.statOp videoPath])
    | .present content =>
      let contentType := getContentType safeName
      match rangeHeader with
      | some range =>
        if range = "" then fullResponse videoPath content contentType
        else rangeResponse videoPath content contentType range
      | none => fullResponse videoPath content contentType

/-- Outcome of the `fs.createReadStream` open, observed at the stream's
first event: either the stream opens and delivers the requested bytes,
or its `error` event fires (file vanished between stat and open,
permissions, ...) and the handler's `stream.on("error", ...)` callback
runs `res.end()` on the already-started response. -/
inductive OpenResult where
  | opened
  | openFailed
deriving DecidableEq, Repr

/-- The no-range branch with the open step explicit: `res.writeHead(200,
...)` commits the status and headers first; `fs.createReadStream` then
either pipes the whole file or errors, in which case `res.end()`
terminates the committed 200 response having delivered no body bytes. -/
def fullResponseOpen (videoPath : String) (content : List Nat) (contentType : String)
    (openRes : OpenResult) : StreamResult × List FsOp :=
  (.success ⟨200, none, none, content.length, contentType,
     match openRes with
     | .opened => content
     | .openFailed => []⟩,
   [.statOp videoPath, .openOp videoPath])

/-- The range branch with the open step explicit: identical parsing and
validation to `rangeResponse`, but `res.writeHead(206, ...)` commits
status and headers before `fs.createReadStream(videoPath, { start, end })`
runs; on its `error` event, `res.end()` terminates the committed 206
response with no body bytes. -/
def rangeResponseOpen (videoPath : String) (content : List Nat) (contentType : String)
    (range : String) (openRes : OpenResult) : StreamResult × List FsOp :=
  match rangeMatch range with
  | none => (.err 416 "Malformed Range header.", [.statOp videoPath])
  | some (g1, g2) =>
    let fileSize := content.length
    let rstart : Int := (parseDigits g1 : Int)
    let rend : Int := if g2 = "" then (fileSize : Int) - 1 else (parseDigits g2 : Int)
    if rstart ≥ (fileSize : Int) ∨ rend ≥ (fileSize : Int) ∨ rstart > rend then
      (.err 416 "Requested range not satisfiable.", [.statOp videoPath])
    else
      let s := rstart.toNat
      let e := rend.toNat
      let chunkSize := e - s + 1
      (.success ⟨206, some s!"bytes {s}-{e}/{fileSize}", some "bytes", chunkSize, contentType,
         match openRes with
         | .opened => (content.drop s).take chunkSize
         | .openFailed => []⟩,
       [.statOp videoPath, .openOp videoPath])

/-- The `GET /api/stream/:name` handler with the filesystem consulted
twice, exactly as the source does: once by `await fsp.stat(videoPath)`
and once when `fs.createReadStream` opens the same path — which happens
only after `res.writeHead` has committed the status line and headers,
so an open failure can no longer change the status; its `error` handler
only `res.end()`s the response. -/
def streamHandlerOpen (requestedName : String) (rangeHeader : Option String)
    (fsStat : String → FsFile) (fsOpen : String → OpenResult) :
    StreamResult × List FsOp :=
  let safeName := nodeBasename requestedName
  if safeName ≠ requestedName then (.err 400 "Invalid file name.", [])
  else if ¬ ALLOWED_EXTENSIONS.contains (lowerStr (nodeExtname safeName)) then
    (.err 415 "Unsupported media type.", [])
  else
    let videoPath := mediaPathOf safeName
    match fsStat videoPath with
    | .absent => (.err 404 "Not found.", [.statOp videoPath])
    | .ioErr => (.err 500 "Server error.", [.statOp videoPath])
    | .present content =>
      let contentType := getContentType safeName
      match rangeHeader with
      | some range =>
        if range = "" then
          fullResponseOpen videoPath content contentType (fsOpen videoPath)
        else rangeResponseOpen videoPath content contentType range (fsOpen videoPath)
      | none => fullResponseOpen videoPath content contentType (fsOpen videoPath)

/-- One directory entry as returned by
`fsp.readdir(dir, { withFileTypes: true })`. -/
structure Dirent where
  name : String
  isFile : Bool
deriving DecidableEq, Repr

/-- Answer of the filesystem for a `readdir` of one media root. -/
inductive ReaddirResult where
  | ok (entries : List Dirent)
  | enoent
  | ioErr
deriving DecidableEq, Repr

/-- Outcome of one request to `GET /api/videos`: the JSON listing, or
an error status with the JSON error message. -/
inductive ListingResult where
  | success (videos : List String) (pictures : List String)
  | failure (status : Nat) (errMsg : String)
deriving DecidableEq, Repr

/-- The `.catch((err) => { if (err.code === "ENOENT") return []; throw err; })`
attached to each `readdir` call: `ENOENT` becomes an empty listing,
any other error keeps propagating. -/
def catchEnoent : ReaddirResult → Except Unit (List Dirent)
  | .ok es => .ok es
  | .enoent => .ok []
  | .ioErr => .error ()

/-- `entries.filter((e) => e.isFile()).map((e) => e.name).filter((name) =>
exts.has(path.extname(name).toLowerCase()))` of the listing handler. -/
def filterMedia (exts : List String) (entries : List Dirent) : List String :=
  ((entries.filter (fun e => e.isFile)).map (fun e => e.name)).filter
    (fun n => exts.contains (lowerStr (nodeExtname n)))

/-- Lexicographic comparison of character lists by code point. -/
def charListLe : List Char → List Char → Bool
  | [], _ => true
  | _ :: _, [] => false
  | a :: as, b :: bs =>
    if a.toNat < b.toNat then true
    else if b.toNat < a.toNat then false
    else charListLe as bs

/-- Lexicographic string comparison by code point, modelling the
ordering of `a.localeCompare(b)`. -/
def strLe (a b : String) : Bool :=
  charListLe a.data b.data

/-- `names.sort((a, b) => a.localeCompare(b))`, with `localeCompare`
modelled as lexicographic code-point comparison. -/
def sortStrings (l : List String) : List String :=
  List.insertionSort (fun a b => strLe a b = true) l

/-- The `GET /api/videos` handler of `server.js`, over the `readdir`
answers for the two media roots.  If either `readdir` fails with an
error other than `ENOENT`, the `Promise.all` rejects and the handler's
`catch` answers 500 with no partial data. -/
def listMedia (videoDir picturesDir : ReaddirResult) : ListingResult :=
  match catchEnoent videoDir, catchEnoent picturesDir with
  | .ok ve, .ok pe =>
    .success (sortStrings (filterMedia VIDEO_EXTENSIONS ve))
             (sortStrings (filterMedia IMAGE_EXTENSIONS pe))
  | _, _ => .failure 500 "Could not read media folders."

/-- Decimal digit characters of a natural number, most significant
first, prepended to `acc`; structural recursion on a fuel argument so
the kernel can evaluate it. -/
def natDigitsCore : Nat → Nat → List Char → List Char
  | 0, _, acc => acc
  | fuel + 1, n, acc =>
    if n < 10 then Char.ofNat (48 + n) :: acc
    else natDigitsCore fuel (n / 10) (Char.ofNat (48 + n % 10) :: acc)

/-- Decimal rendering of a natural number, used to spell concrete
`Range` header strings such as `bytes=0-41`. -/
def natDigits (n : Nat) : String :=
  ⟨natDigitsCore (n + 1) n []⟩

/-- A ten-byte demonstration file `videos/a.mp4`. -/
def demoContent : List Nat := [10, 20, 30, 40, 50, 60, 70, 80, 90, 100]

/-- A filesystem holding exactly the file `videos/a.mp4` with
`demoContent` as its bytes. -/
def fsA : String → FsFile :=
  fun p => if p = "videos/a.mp4" then .present demoContent else .absent

/-- A filesystem holding exactly the empty file `videos/e.mp4`. -/
def fsEmpty : String → FsFile :=
  fun p => if p = "videos/e.mp4" then .present [] else .absent

example : nodeBasename "../secret.mp4" = "secret.mp4" := by decide
example : nodeExtname "a.mp4" = ".mp4" := by decide
example : nodeExtname ".." = "" := by decide
example : nodeExtname ".hidden" = "" := by decide
example : nodeExtname "index." = "." := by decide
example : rangeMatch "bytes=0-" = some ("0", "") := by decide
example : rangeMatch "bytes=2-5" = some ("2", "5") := by decide
example : rangeMatch "bytes=0-5,7-8" = some ("0", "5") := by decide
example : rangeMatch "bytes=-500" = none := by decide
example : rangeMatch "garbage" = none := by decide
example : mediaPathOf "a.mp4" = "videos/a.mp4" := by decide
example : natDigits 407 = "407" := by decide
example :
    (streamHandler "a.mp4" (some "bytes=2-5") fsA).1 =
      .success ⟨206, some "bytes 2-5/10", some "bytes", 4, "video/mp4", [30, 40, 50, 60]⟩ := by
  decide

/-! ### Lemmas about the regex matcher and digit parsing -/

lemma takeWhile_all {p : Char → Bool} :
    ∀ l : List Char, (∀ c ∈ l, p c = true) → l.takeWhile p = l ∧ l.dropWhile p = []
  | [], _ => ⟨rfl, rfl⟩
  | c :: l, h => by
    have hc := h c (by simp)
    have ih := takeWhile_all l (fun x hx => h x (by simp [hx]))
    simp [List.takeWhile_cons, List.dropWhile_cons, hc, ih.1, ih.2]

lemma takeWhile_append_stop {p : Char → Bool} :
    ∀ (l r : List Char) (c : Char), (∀ x ∈ l, p x = true) → p c = false →
      (l ++ c :: r).takeWhile p = l ∧ (l ++ c :: r).dropWhile p = c :: r
  | [], r, c, _, hc => by simp [List.takeWhile_cons, List.dropWhile_cons, hc]
  | x :: l, r, c, h, hc => by
    have hx := h x (by simp)
    have ih := takeWhile_append_stop l r c (fun y hy => h y (by simp [hy])) hc
    simp [List.takeWhile_cons, List.dropWhile_cons, hx, ih.1, ih.2]

lemma matchRangeAt_wellFormed (d1 d2 : List Char) (h1 : d1 ≠ [])
    (hd1 : ∀ c ∈ d1, c.isDigit = true) (hd2 : ∀ c ∈ d2, c.isDigit = true) :
    matchRangeAt ('b' :: 'y' :: 't' :: 'e' :: 's' :: '=' :: (d1 ++ '-' :: d2)) =
      some (⟨d1⟩, ⟨d2⟩) := by
  have hstop := takeWhile_append_stop d1 d2 '-' hd1 (by decide)
  have hall := takeWhile_all d2 hd2
  simp [matchRangeAt, hstop.1, hstop.2, h1, hall.1]

lemma rangeMatch_wellFormed (sa sb : String) (h1 : sa.data ≠ [])
    (hd1 : ∀ c ∈ sa.data, c.isDigit = true) (hd2 : ∀ c ∈ sb.data, c.isDigit = true) :
    rangeMatch ("bytes=" ++ sa ++ "-" ++ sb) = some (sa, sb) := by
  have hdata : ("bytes=" ++ sa ++ "-" ++ sb).data
      = 'b' :: 'y' :: 't' :: 'e' :: 's' :: '=' :: (sa.data ++ '-' :: sb.data) := by
    simp [String.data_append]
  rw [rangeMatch, hdata, findRangeAux]
  rw [matchRangeAt_wellFormed sa.data sb.data h1 hd1 hd2]

/-- Facts about the decimal digit character of `d < 10`. -/
lemma digitChar_facts (d : Nat) (h : d < 10) :
    (Char.ofNat (48 + d)).isDigit = true ∧ (Char.ofNat (48 + d)).toNat = 48 + d := by
  interval_cases d <;> exact ⟨by decide, by decide⟩

lemma natDigitsCore_acc :
    ∀ (fuel n : Nat) (acc : List Char),
      natDigitsCore fuel n acc = natDigitsCore fuel n [] ++ acc
  | 0, n, acc => rfl
  | fuel + 1, n, acc => by
    by_cases h : n < 10
    · simp [natDigitsCore, h]
    · simp only [natDigitsCore, if_neg h]
      rw [natDigitsCore_acc fuel (n / 10) (Char.ofNat (48 + n % 10) :: acc),
        natDigitsCore_acc fuel (n / 10) [Char.ofNat (48 + n % 10)]]
      simp

lemma natDigitsCore_irrel :
    ∀ (fuel fuel' n : Nat) (acc : List Char), n < fuel → n < fuel' →
      natDigitsCore fuel n acc = natDigitsCore fuel' n acc
  | 0, _, n, _, h, _ => absurd h (Nat.not_lt_zero n)
  | _ + 1, 0, n, _, _, h' => absurd h' (Nat.not_lt_zero n)
  | f + 1, f' + 1, n, acc, h, h' => by
    by_cases h10 : n < 10
    · simp [natDigitsCore, h10]
    · simp only [natDigitsCore, if_neg h10]
      exact natDigitsCore_irrel f f' (n / 10) _ (by omega) (by omega)

lemma natDigits_spec :
    ∀ n : Nat, (natDigits n).data ≠ [] ∧ (∀ c ∈ (natDigits n).data, c.isDigit = true) ∧
      parseDigits (natDigits n) = n := by
  intro n
  induction n using Nat.strong_induction_on with
  | _ n ih =>
    by_cases h : n < 10
    · have hc := digitChar_facts n h
      refine ⟨?_, ?_, ?_⟩
      · simp [natDigits, natDigitsCore, h]
      · simp [natDigits, natDigitsCore, h, hc.1]
      · simp [natDigits, parseDigits, natDigitsCore, h, hc.2]
    · have hstep : (natDigits n).data = (natDigits (n / 10)).data ++ [Char.ofNat (48 + n % 10)] := by
        show natDigitsCore (n + 1) n [] = _
        rw [natDigitsCore]
        rw [if_neg h]
        rw [natDigitsCore_irrel n (n / 10 + 1) (n / 10) _ (by omega) (by omega)]
        rw [natDigitsCore_acc]
        rfl
      have ihd := ih (n / 10) (by omega)
      have hc := digitChar_facts (n % 10) (by omega)
      refine ⟨?_, ?_, ?_⟩
      · simp [hstep]
      · intro c hcmem
        rw [hstep] at hcmem
        rcases List.mem_append.mp hcmem with hmem | hmem
        · exact ihd.2.1 c hmem
        · simp at hmem
          rw [hmem]
          exact hc.1
      · show (natDigits n).data.foldl (fun acc c => acc * 10 + (c.toNat - 48)) 0 = n
        rw [hstep, List.foldl_append]
        have hparse : (natDigits (n / 10)).data.foldl
            (fun acc c => acc * 10 + (c.toNat - 48)) 0 = n / 10 := ihd.2.2
        rw [hparse]
        simp only [List.foldl_cons, List.foldl_nil, hc.2]
        omega

/-! ### Step lemmas for the stream handler -/

lemma streamHandler_badName (name : String) (rh : Option String) (fs : String → FsFile)
    (h : nodeBasename name ≠ name) :
    streamHandler name rh fs = (.err 400 "Invalid file name.", []) := by
  simp [streamHandler, h]

lemma streamHandler_badExt (name : String) (rh : Option String) (fs : String → FsFile)
    (h1 : nodeBasename name = name)
    (h2 : ALLOWED_EXTENSIONS.contains (lowerStr (nodeExtname name)) = false) :
    streamHandler name rh fs = (.err 415 "Unsupported media type.", []) := by
  have h2m : lowerStr (nodeExtname name) ∉ ALLOWED_EXTENSIONS := by simpa using h2
  simp [streamHandler, h1, h2m]

lemma streamHandler_enoent (name : String) (rh : Option String) (fs : String → FsFile)
    (h1 : nodeBasename name = name)
    (h2 : ALLOWED_EXTENSIONS.contains (lowerStr (nodeExtname name)) = true)
    (h3 : fs (mediaPathOf name) = .absent) :
    streamHandler name rh fs = (.err 404 "Not found.", [.statOp (mediaPathOf name)]) := by
  have h2m : lowerStr (nodeExtname name) ∈ ALLOWED_EXTENSIONS := by simpa using h2
  simp [streamHandler, h1, h2m, h3]

lemma streamHandler_ioErr (name : String) (rh : Option String) (fs : String → FsFile)
    (h1 : nodeBasename name = name)
    (h2 : ALLOWED_EXTENSIONS.contains (lowerStr (nodeExtname name)) = true)
    (h3 : fs (mediaPathOf name) = .ioErr) :
    streamHandler name rh fs = (.err 500 "Server error.", [.statOp (mediaPathOf name)]) := by
  have h2m : lowerStr (nodeExtname name) ∈ ALLOWED_EXTENSIONS := by simpa using h2
  simp [streamHandler, h1, h2m, h3]

lemma streamHandler_present (name : String) (rh : Option String) (fs : String → FsFile)
    (content : List Nat)
    (h1 : nodeBasename name = name)
    (h2 : ALLOWED_EXTENSIONS.contains (lowerStr (nodeExtname name)) = true)
    (h3 : fs (mediaPathOf name) = .present content) :
    streamHandler name rh fs =
      match rh with
      | some r =>
        if r = "" then fullResponse (mediaPathOf name) content (getContentType name)
        else rangeResponse (mediaPathOf name) content (getContentType name) r
      | none => fullResponse (mediaPathOf name) content (getContentType name) := by
  have h2m : lowerStr (nodeExtname name) ∈ ALLOWED_EXTENSIONS := by simpa using h2
  simp [streamHandler, h1, h2m, h3]

lemma rangeResponse_noMatch (p : String) (content : List Nat) (ct r : String)
    (h : rangeMatch r = none) :
    rangeResponse p content ct r = (.err 416 "Malformed Range header.", [.statOp p]) := by
  simp [rangeResponse, h]

lemma rangeResponse_unsat (p : String) (content : List Nat) (ct r : String) (g1 g2 : String)
    (h : rangeMatch r = some (g1, g2))
    (hcond : (parseDigits g1 : Int) ≥ (content.length : Int)
      ∨ (if g2 = "" then (content.length : Int) - 1 else (parseDigits g2 : Int))
          ≥ (content.length : Int)
      ∨ (parseDigits g1 : Int)
          > (if g2 = "" then (content.length : Int) - 1 else (parseDigits g2 : Int))) :
    rangeResponse p content ct r =
      (.err 416 "Requested range not satisfiable.", [.statOp p]) := by
  simp only [rangeResponse, h]
  rw [if_pos hcond]

lemma rangeResponse_ok (p : String) (content : List Nat) (ct r : String) (g1 g2 : String)
    (a b : Nat)
    (h : rangeMatch r = some (g1, g2))
    (ha : parseDigits g1 = a)
    (hb : (if g2 = "" then (content.length : Int) - 1 else (parseDigits g2 : Int)) = (b : Int))
    (hab : a ≤ b) (hbN : b < content.length) :
    rangeResponse p content ct r =
      (.success ⟨206, some s!"bytes {a}-{b}/{content.length}", some "bytes", b - a + 1, ct,
                 (content.drop a).take (b - a + 1)⟩,
       [.statOp p, .openOp p]) := by
  simp only [rangeResponse, h, ha, hb]
  rw [if_neg (by omega)]
  simp [Int.toNat_ofNat]

lemma bytesHeader_data (sa sb : String) :
    ("bytes=" ++ sa ++ "-" ++ sb).data
      = 'b' :: 'y' :: 't' :: 'e' :: 's' :: '=' :: (sa.data ++ '-' :: sb.data) := by
  simp [String.data_append]

lemma bytesHeader_ne_empty (sa sb : String) : "bytes=" ++ sa ++ "-" ++ sb ≠ "" := by
  intro hEq
  have h := congrArg String.data hEq
  rw [bytesHeader_data] at h
  simp at h

lemma streamHandler_present_range (name : String) (fs : String → FsFile)
    (content : List Nat) (r : String)
    (h1 : nodeBasename name = name)
    (h2 : ALLOWED_EXTENSIONS.contains (lowerStr (nodeExtname name)) = true)
    (h3 : fs (mediaPathOf name) = .present content)
    (hr : r ≠ "") :
    streamHandler name (some r) fs =
      rangeResponse (mediaPathOf name) content (getContentType name) r := by
  rw [streamHandler_present name (some r) fs content h1 h2 h3]
  simp [hr]

lemma streamHandler_present_full (name : String) (fs : String → FsFile)
    (content : List Nat) (rh : Option String)
    (h1 : nodeBasename name = name)
    (h2 : ALLOWED_EXTENSIONS.contains (lowerStr (nodeExtname name)) = true)
    (h3 : fs (mediaPathOf name) = .present content)
    (hr : rh = none ∨ rh = some "") :
    streamHandler name rh fs =
      fullResponse (mediaPathOf name) content (getContentType name) := by
  rcases hr with h | h <;>
    rw [streamHandler_present name rh fs content h1 h2 h3] <;> simp [h]

/-! ### The claims -/

/-- C1: for an existing allowed file of size `N`, every `Range` header of
the form `bytes=a-b` (digit strings whose values satisfy `a ≤ b < N`)
yields status 206 with headers `Content-Range: bytes a-b/N`,
`Accept-Ranges: bytes`, `Content-Length = b - a + 1`, and a body of
exactly `b - a + 1` bytes equal to the file's inclusive slice `[a, b]`;
and every header `bytes=a-` with the end omitted behaves the same with
the end defaulting to `N - 1`. -/
theorem stream_range_request_spec (name : String) (content : List Nat)
    (fs : String → FsFile) (sa sb : String) (a b : Nat)
    (h1 : nodeBasename name = name)
    (h2 : ALLOWED_EXTENSIONS.contains (lowerStr (nodeExtname name)) = true)
    (h3 : fs (mediaPathOf name) = .present content)
    (hsa : sa.data ≠ []) (hda : ∀ c ∈ sa.data, c.isDigit = true)
    (hdb : ∀ c ∈ sb.data, c.isDigit = true)
    (ha : parseDigits sa = a) (hbv : parseDigits sb = b) :
    (sb.data ≠ [] → a ≤ b → b < content.length →
      streamHandler name (some ("bytes=" ++ sa ++ "-" ++ sb)) fs =
        (.success ⟨206, some s!"bytes {a}-{b}/{content.length}", some "bytes", b - a + 1,
                   getContentType name, (content.drop a).take (b - a + 1)⟩,
         [.statOp (mediaPathOf name), .openOp (mediaPathOf name)])
      ∧ ((content.drop a).take (b - a + 1)).length = b - a + 1)
    ∧ (a < content.length →
      streamHandler name (some ("bytes=" ++ sa ++ "-")) fs =
        (.success ⟨206, some s!"bytes {a}-{content.length - 1}/{content.length}", some "bytes",
                   content.length - 1 - a + 1, getContentType name,
                   (content.drop a).take (content.length - 1 - a + 1)⟩,
         [.statOp (mediaPathOf name), .openOp (mediaPathOf name)])) := by
  constructor
  · intro hsb hab hbN
    have hm := rangeMatch_wellFormed sa sb hsa hda hdb
    have hhdr := streamHandler_present_range name fs content ("bytes=" ++ sa ++ "-" ++ sb)
      h1 h2 h3 (bytesHeader_ne_empty sa sb)
    have hsbne : ¬ sb = "" := by
      intro hEq
      apply hsb
      rw [hEq]
    have hbI : (if sb = "" then ((content.length : Nat) : Int) - 1
        else ((parseDigits sb : Nat) : Int)) = ((b : Nat) : Int) := by
      rw [if_neg hsbne, hbv]
    rw [hhdr, rangeResponse_ok (mediaPathOf name) content (getContentType name)
      ("bytes=" ++ sa ++ "-" ++ sb) sa sb a b hm ha hbI hab hbN]
    refine ⟨rfl, ?_⟩
    simp [List.length_take, List.length_drop]
    omega
  · intro haN
    have hm0 : rangeMatch ("bytes=" ++ sa ++ "-") = some (sa, "") := by
      have h := rangeMatch_wellFormed sa "" hsa hda (by intro c hc ; simp at hc)
      rwa [String.append_empty] at h
    have hhdr := streamHandler_present_range name fs content ("bytes=" ++ sa ++ "-")
      h1 h2 h3 (by
        have h := bytesHeader_ne_empty sa ""
        rwa [String.append_empty] at h)
    have hbI : (if ("" : String) = "" then ((content.length : Nat) : Int) - 1
        else ((parseDigits "" : Nat) : Int)) = ((content.length - 1 : Nat) : Int) := by
      rw [if_pos rfl]
      omega
    rw [hhdr, rangeResponse_ok (mediaPathOf name) content (getContentType name)
      ("bytes=" ++ sa ++ "-") sa "" a (content.length - 1) hm0 ha hbI
      (by omega) (by omega)]

/-- C1 witness: the ten-byte file `videos/a.mp4` served with
`Range: bytes=2-5` and `Range: bytes=2-`. -/
theorem stream_range_request_spec_witness :
    streamHandler "a.mp4" (some "bytes=2-5") fsA =
      (.success ⟨206, some "bytes 2-5/10", some "bytes", 4, "video/mp4", [30, 40, 50, 60]⟩,
       [.statOp "videos/a.mp4", .openOp "videos/a.mp4"])
    ∧ streamHandler "a.mp4" (some "bytes=2-") fsA =
      (.success ⟨206, some "bytes 2-9/10", some "bytes", 8, "video/mp4",
                 [30, 40, 50, 60, 70, 80, 90, 100]⟩,
       [.statOp "videos/a.mp4", .openOp "videos/a.mp4"]) := by
  have h := stream_range_request_spec "a.mp4" demoContent fsA "2" "5" 2 5 (by decide)
    (by decide) (by decide) (by decide) (by decide) (by decide) (by decide) (by decide)
  exact ⟨(h.1 (by decide) (by decide) (by decide)).1, h.2 (by decide)⟩

/-- C4: for an existing allowed file, a request with no `Range` header
responds 200 with `Content-Length` equal to the file size and a body
equal byte-for-byte to the entire file content from offset 0. -/
theorem full_file_response_spec (name : String) (content : List Nat)
    (fs : String → FsFile)
    (h1 : nodeBasename name = name)
    (h2 : ALLOWED_EXTENSIONS.contains (lowerStr (nodeExtname name)) = true)
    (h3 : fs (mediaPathOf name) = .present content) :
    streamHandler name none fs =
      (.success ⟨200, none, none, content.length, getContentType name, content⟩,
       [.statOp (mediaPathOf name), .openOp (mediaPathOf name)]) := by
  rw [streamHandler_present_full name fs content none h1 h2 h3 (Or.inl rfl)]
  rfl

/-- C4 witness: the ten-byte file `videos/a.mp4` served without a
`Range` header. -/
theorem full_file_response_spec_witness :
    streamHandler "a.mp4" none fsA =
      (.success ⟨200, none, none, 10, "video/mp4", demoContent⟩,
       [.statOp "videos/a.mp4", .openOp "videos/a.mp4"]) := by
  rw [full_file_response_spec "a.mp4" demoContent fsA (by decide) (by decide) (by decide)]
  decide

/-- C5: a decoded name that is not its own basename is rejected 400 with
no filesystem operation performed, and (otherwise) a lower-cased
extension outside {.mp4, .webm, .jpg, .jpeg} is rejected 415 with no
filesystem operation performed — both decided before any file access,
as the empty operation log shows. -/
theorem name_and_type_checks_precede_fs (name : String) (rh : Option String)
    (fs : String → FsFile) :
    (nodeBasename name ≠ name →
      streamHandler name rh fs = (.err 400 "Invalid file name.", []))
    ∧ (nodeBasename name = name →
       ALLOWED_EXTENSIONS.contains (lowerStr (nodeExtname name)) = false →
      streamHandler name rh fs = (.err 415 "Unsupported media type.", [])) :=
  ⟨fun h => streamHandler_badName name rh fs h,
   fun h1 h2 => streamHandler_badExt name rh fs h1 h2⟩

/-- C5 witness: a traversal name is rejected 400 and a disallowed
extension 415, both with an empty filesystem log. -/
theorem name_and_type_checks_precede_fs_witness :
    streamHandler "../a.mp4" none fsA = (.err 400 "Invalid file name.", [])
    ∧ streamHandler "a.txt" none fsA = (.err 415 "Unsupported media type.", []) :=
  ⟨(name_and_type_checks_precede_fs "../a.mp4" none fsA).1 (by decide),
   (name_and_type_checks_precede_fs "a.txt" none fsA).2 (by decide) (by decide)⟩

/-! ### Step lemmas for the two-phase handler -/

lemma fullResponseOpen_opened (p : String) (c : List Nat) (ct : String) :
    fullResponseOpen p c ct .opened = fullResponse p c ct :=
  rfl

lemma rangeResponseOpen_opened (p : String) (c : List Nat) (ct r : String) :
    rangeResponseOpen p c ct r .opened = rangeResponse p c ct r := by
  cases hm : rangeMatch r with
  | none => simp [rangeResponseOpen, rangeResponse, hm]
  | some g =>
    obtain ⟨g1, g2⟩ := g
    simp [rangeResponseOpen, rangeResponse, hm]

lemma streamHandlerOpen_badName (name : String) (rh : Option String)
    (fsStat : String → FsFile) (fsOpen : String → OpenResult)
    (h : nodeBasename name ≠ name) :
    streamHandlerOpen name rh fsStat fsOpen = (.err 400 "Invalid file name.", []) := by
  simp [streamHandlerOpen, h]

lemma streamHandlerOpen_badExt (name : String) (rh : Option String)
    (fsStat : String → FsFile) (fsOpen : String → OpenResult)
    (h1 : nodeBasename name = name)
    (h2 : ALLOWED_EXTENSIONS.contains (lowerStr (nodeExtname name)) = false) :
    streamHandlerOpen name rh fsStat fsOpen = (.err 415 "Unsupported media type.", []) := by
  have h2m : lowerStr (nodeExtname name) ∉ ALLOWED_EXTENSIONS := by simpa using h2
  simp [streamHandlerOpen, h1, h2m]

lemma streamHandlerOpen_enoent (name : String) (rh : Option String)
    (fsStat : String → FsFile) (fsOpen : String → OpenResult)
    (h1 : nodeBasename name = name)
    (h2 : ALLOWED_EXTENSIONS.contains (lowerStr (nodeExtname name)) = true)
    (h3 : fsStat (mediaPathOf name) = .absent) :
    streamHandlerOpen name rh fsStat fsOpen
      = (.err 404 "Not found.", [.statOp (mediaPathOf name)]) := by
  have h2m : lowerStr (nodeExtname name) ∈ ALLOWED_EXTENSIONS := by simpa using h2
  simp [streamHandlerOpen, h1, h2m, h3]

lemma streamHandlerOpen_ioErr (name : String) (rh : Option String)
    (fsStat : String → FsFile) (fsOpen : String → OpenResult)
    (h1 : nodeBasename name = name)
    (h2 : ALLOWED_EXTENSIONS.contains (lowerStr (nodeExtname name)) = true)
    (h3 : fsStat (mediaPathOf name) = .ioErr) :
    streamHandlerOpen name rh fsStat fsOpen
      = (.err 500 "Server error.", [.statOp (mediaPathOf name)]) := by
  have h2m : lowerStr (nodeExtname name) ∈ ALLOWED_EXTENSIONS := by simpa using h2
  simp [streamHandlerOpen, h1, h2m, h3]

lemma streamHandlerOpen_present (name : String) (rh : Option String)
    (fsStat : String → FsFile) (fsOpen : String → OpenResult) (content : List Nat)
    (h1 : nodeBasename name = name)
    (h2 : ALLOWED_EXTENSIONS.contains (lowerStr (nodeExtname name)) = true)
    (h3 : fsStat (mediaPathOf name) = .present content) :
    streamHandlerOpen name rh fsStat fsOpen =
      match rh with
      | some r =>
        if r = "" then
          fullResponseOpen (mediaPathOf name) content (getContentType name)
            (fsOpen (mediaPathOf name))
        else
          rangeResponseOpen (mediaPathOf name) content (getContentType name) r
            (fsOpen (mediaPathOf name))
      | none =>
        fullResponseOpen (mediaPathOf name) content (getContentType name)
          (fsOpen (mediaPathOf name)) := by
  have h2m : lowerStr (nodeExtname name) ∈ ALLOWED_EXTENSIONS := by simpa using h2
  simp [streamHandlerOpen, h1, h2m, h3]

/-- `streamHandler` is the projection of the two-phase handler onto runs
in which every `createReadStream` open succeeds. -/
lemma streamHandlerOpen_opened (name : String) (rh : Option String)
    (fsStat : String → FsFile) :
    streamHandlerOpen name rh fsStat (fun _ => .opened) = streamHandler name rh fsStat := by
  by_cases hb : nodeBasename name = name
  · by_cases h2 : ALLOWED_EXTENSIONS.contains (lowerStr (nodeExtname name)) = true
    · cases h3 : fsStat (mediaPathOf name) with
      | absent =>
        rw [streamHandlerOpen_enoent name rh fsStat _ hb h2 h3,
          streamHandler_enoent name rh fsStat hb h2 h3]
      | ioErr =>
        rw [streamHandlerOpen_ioErr name rh fsStat _ hb h2 h3,
          streamHandler_ioErr name rh fsStat hb h2 h3]
      | present content =>
        rw [streamHandlerOpen_present name rh fsStat _ content hb h2 h3,
          streamHandler_present name rh fsStat content hb h2 h3]
        cases rh with
        | none => exact fullResponseOpen_opened _ _ _
        | some r =>
          by_cases hr : r = ""
          · simp only [if_pos hr]
            exact fullResponseOpen_opened _ _ _
          · simp only [if_neg hr]
            exact rangeResponseOpen_opened _ _ _ _
    · have h2f : ALLOWED_EXTENSIONS.contains (lowerStr (nodeExtname name)) = false := by
        revert h2
        cases ALLOWED_EXTENSIONS.contains (lowerStr (nodeExtname name)) <;> simp
      rw [streamHandlerOpen_badExt name rh fsStat _ hb h2f,
        streamHandler_badExt name rh fsStat hb h2f]
  · rw [streamHandlerOpen_badName name rh fsStat _ hb,
      streamHandler_badName name rh fsStat hb]

lemma rangeResponseOpen_status (p : String) (c : List Nat) (ct r : String)
    (openRes : OpenResult) :
    respStatus (rangeResponseOpen p c ct r openRes).1
      = respStatus (rangeResponse p c ct r).1 := by
  cases hm : rangeMatch r with
  | none => simp [rangeResponseOpen, rangeResponse, hm]
  | some g =>
    obtain ⟨g1, g2⟩ := g
    simp only [rangeResponseOpen, rangeResponse, hm]
    by_cases hcond : (parseDigits g1 : Int) ≥ (c.length : Int)
        ∨ (if g2 = "" then (c.length : Int) - 1 else (parseDigits g2 : Int)) ≥ (c.length : Int)
        ∨ (parseDigits g1 : Int)
            > (if g2 = "" then (c.length : Int) - 1 else (parseDigits g2 : Int))
    · rw [if_pos hcond, if_pos hcond]
    · rw [if_neg hcond, if_neg hcond]
      rfl

lemma rangeResponseOpen_ok_failed (p : String) (content : List Nat) (ct r : String)
    (g1 g2 : String) (a b : Nat)
    (h : rangeMatch r = some (g1, g2))
    (ha : parseDigits g1 = a)
    (hb : (if g2 = "" then (content.length : Int) - 1 else (parseDigits g2 : Int)) = (b : Int))
    (hab : a ≤ b) (hbN : b < content.length) :
    rangeResponseOpen p content ct r .openFailed =
      (.success ⟨206, some s!"bytes {a}-{b}/{content.length}", some "bytes", b - a + 1, ct, []⟩,
       [.statOp p, .openOp p]) := by
  simp only [rangeResponseOpen, h, ha, hb]
  rw [if_neg (by omega)]
  simp [Int.toNat_ofNat]

/-- C7 counterexample: a filesystem failure at open time (after a
successful stat of `videos/a.mp4`) produces neither 404 nor 500 — the
200 status and headers were already written, and the stream's error
handler only ends the response, leaving a committed 200 with
`Content-Length` 10 and no body bytes. -/
theorem open_failure_truncates_200_counterexample :
    (streamHandlerOpen "a.mp4" none fsA (fun _ => .openFailed)).1
      = .success ⟨200, none, none, 10, "video/mp4", []⟩
    ∧ respStatus (streamHandlerOpen "a.mp4" none fsA (fun _ => .openFailed)).1 ≠ 404
    ∧ respStatus (streamHandlerOpen "a.mp4" none fsA (fun _ => .openFailed)).1 ≠ 500 := by
  decide

/-- C7 (amended): for a validated request, an absent target file at
stat time yields 404 and any other stat failure yields 500, and these
are the only status outcomes of a stat failure; an open failure, by
contrast, occurs only after the 200/206 status and headers are
committed — the error handler ends the response early with no body
bytes delivered, and the status is never rewritten (it always equals
the status of the corresponding successful-open run). -/
theorem stat_open_failure_spec (name : String) (rh : Option String)
    (fsStat : String → FsFile) (fsOpen : String → OpenResult)
    (h1 : nodeBasename name = name)
    (h2 : ALLOWED_EXTENSIONS.contains (lowerStr (nodeExtname name)) = true) :
    (fsStat (mediaPathOf name) = .absent →
      streamHandlerOpen name rh fsStat fsOpen
        = (.err 404 "Not found.", [.statOp (mediaPathOf name)]))
    ∧ (fsStat (mediaPathOf name) = .ioErr →
      streamHandlerOpen name rh fsStat fsOpen
        = (.err 500 "Server error.", [.statOp (mediaPathOf name)]))
    ∧ (∀ content : List Nat, fsStat (mediaPathOf name) = .present content →
        fsOpen (mediaPathOf name) = .openFailed →
        (rh = none ∨ rh = some "") →
        streamHandlerOpen name rh fsStat fsOpen
          = (.success ⟨200, none, none, content.length, getContentType name, []⟩,
             [.statOp (mediaPathOf name), .openOp (mediaPathOf name)]))
    ∧ (∀ (content : List Nat) (r g1 g2 : String) (a b : Nat),
        fsStat (mediaPathOf name) = .present content →
        fsOpen (mediaPathOf name) = .openFailed →
        r ≠ "" → rangeMatch r = some (g1, g2) →
        parseDigits g1 = a →
        (if g2 = "" then (content.length : Int) - 1 else (parseDigits g2 : Int)) = (b : Int) →
        a ≤ b → b < content.length →
        streamHandlerOpen name (some r) fsStat fsOpen
          = (.success ⟨206, some s!"bytes {a}-{b}/{content.length}", some "bytes", b - a + 1,
                       getContentType name, []⟩,
             [.statOp (mediaPathOf name), .openOp (mediaPathOf name)]))
    ∧ (∀ content : List Nat, fsStat (mediaPathOf name) = .present content →
        respStatus (streamHandlerOpen name rh fsStat fsOpen).1
          = respStatus (streamHandler name rh fsStat).1) := by
  refine ⟨fun h3 => streamHandlerOpen_enoent name rh fsStat fsOpen h1 h2 h3,
    fun h3 => streamHandlerOpen_ioErr name rh fsStat fsOpen h1 h2 h3,
    ?_, ?_, ?_⟩
  · intro content h3 hopen hrh
    rw [streamHandlerOpen_present name rh fsStat fsOpen content h1 h2 h3]
    rcases hrh with hrh | hrh <;> rw [hrh] <;> simp [fullResponseOpen, hopen]
  · intro content r g1 g2 a b h3 hopen hr hm ha hb hab hbN
    rw [streamHandlerOpen_present name (some r) fsStat fsOpen content h1 h2 h3]
    simp only [if_neg hr]
    rw [hopen]
    exact rangeResponseOpen_ok_failed (mediaPathOf name) content (getContentType name)
      r g1 g2 a b hm ha hb hab hbN
  · intro content h3
    rw [streamHandlerOpen_present name rh fsStat fsOpen content h1 h2 h3,
      streamHandler_present name rh fsStat content h1 h2 h3]
    cases rh with
    | none => rfl
    | some r =>
      by_cases hr : r = ""
      · simp only [if_pos hr]
        rfl
      · simp only [if_neg hr]
        exact rangeResponseOpen_status (mediaPathOf name) content (getContentType name) r _

/-- C7 (amended) witness: a stat failure on `videos/a.mp4` yields 404;
a stat success followed by an open failure yields the committed 200
with no body; the status equals the successful-open run's status. -/
theorem stat_open_failure_spec_witness :
    streamHandlerOpen "a.mp4" none (fun _ => .absent) (fun _ => .opened)
      = (.err 404 "Not found.", [.statOp "videos/a.mp4"])
    ∧ streamHandlerOpen "a.mp4" none (fun _ => .ioErr) (fun _ => .opened)
      = (.err 500 "Server error.", [.statOp "videos/a.mp4"])
    ∧ streamHandlerOpen "a.mp4" none fsA (fun _ => .openFailed)
      = (.success ⟨200, none, none, 10, "video/mp4", []⟩,
         [.statOp "videos/a.mp4", .openOp "videos/a.mp4"])
    ∧ streamHandlerOpen "a.mp4" (some "bytes=2-5") fsA (fun _ => .openFailed)
      = (.success ⟨206, some "bytes 2-5/10", some "bytes", 4, "video/mp4", []⟩,
         [.statOp "videos/a.mp4", .openOp "videos/a.mp4"])
    ∧ respStatus (streamHandlerOpen "a.mp4" (some "bytes=2-5") fsA (fun _ => .openFailed)).1
      = respStatus (streamHandler "a.mp4" (some "bytes=2-5") fsA).1 := by
  refine ⟨?_, ?_, ?_, ?_, ?_⟩
  · rw [(stat_open_failure_spec "a.mp4" none (fun _ => .absent) (fun _ => .opened)
      (by decide) (by decide)).1 rfl]
    decide
  · rw [(stat_open_failure_spec "a.mp4" none (fun _ => .ioErr) (fun _ => .opened)
      (by decide) (by decide)).2.1 rfl]
    decide
  · rw [(stat_open_failure_spec "a.mp4" none fsA (fun _ => .openFailed)
      (by decide) (by decide)).2.2.1 demoContent (by decide) rfl (Or.inl rfl)]
    decide
  · rw [(stat_open_failure_spec "a.mp4" (some "bytes=2-5") fsA (fun _ => .openFailed)
      (by decide) (by decide)).2.2.2.1 demoContent "bytes=2-5" "2" "5" 2 5
      (by decide) rfl (by decide) (by decide) (by decide) (by decide) (by decide) (by decide)]
    decide
  · exact (stat_open_failure_spec "a.mp4" (some "bytes=2-5") fsA (fun _ => .openFailed)
      (by decide) (by decide)).2.2.2.2 demoContent (by decide)

/-- C3: for an existing allowed file and any well-formed single-range
header — one the regex matches, with offsets `s` and `e`, `e`
defaulting to `fileSize - 1` when the second capture group is empty —
the request is rejected as unsatisfiable 416 exactly when
`s ≥ fileSize ∨ e ≥ fileSize ∨ s > e`; otherwise a 206 serving the
inclusive slice `[s, e]` results, and `0 ≤ s ≤ e < fileSize` holds for
the range reaching the streaming step. -/
theorem range_validation_iff_unsatisfiable (name : String) (content : List Nat)
    (fs : String → FsFile) (r g1 g2 : String) (s e : Int)
    (h1 : nodeBasename name = name)
    (h2 : ALLOWED_EXTENSIONS.contains (lowerStr (nodeExtname name)) = true)
    (h3 : fs (mediaPathOf name) = .present content)
    (hm : rangeMatch r = some (g1, g2))
    (hs : s = (parseDigits g1 : Int))
    (he : e = if g2 = "" then (content.length : Int) - 1 else (parseDigits g2 : Int)) :
    ((streamHandler name (some r) fs).1 = .err 416 "Requested range not satisfiable."
        ↔ (s ≥ (content.length : Int) ∨ e ≥ (content.length : Int) ∨ s > e))
    ∧ (¬ (s ≥ (content.length : Int) ∨ e ≥ (content.length : Int) ∨ s > e) →
        (streamHandler name (some r) fs).1 =
          .success ⟨206, some s!"bytes {s.toNat}-{e.toNat}/{content.length}", some "bytes",
                    e.toNat - s.toNat + 1, getContentType name,
                    (content.drop s.toNat).take (e.toNat - s.toNat + 1)⟩
          ∧ 0 ≤ s ∧ s ≤ e ∧ e < (content.length : Int)) := by
  have hrne : r ≠ "" := by
    intro hEq
    rw [hEq] at hm
    exact Option.noConfusion hm
  rw [streamHandler_present_range name fs content r h1 h2 h3 hrne]
  subst hs
  subst he
  simp only [rangeResponse, hm]
  by_cases hcond : (parseDigits g1 : Int) ≥ (content.length : Int)
      ∨ (if g2 = "" then (content.length : Int) - 1 else (parseDigits g2 : Int))
          ≥ (content.length : Int)
      ∨ (parseDigits g1 : Int)
          > (if g2 = "" then (content.length : Int) - 1 else (parseDigits g2 : Int))
  · rw [if_pos hcond]
    exact ⟨⟨fun _ => hcond, fun _ => rfl⟩, fun hn => absurd hcond hn⟩
  · rw [if_neg hcond]
    constructor
    · constructor
      · intro hEq
        simp at hEq
      · intro hc
        exact absurd hc hcond
    · intro hn
      refine ⟨rfl, by omega, by omega, by omega⟩

/-- C3 witness: on the ten-byte file, `bytes=2-12` (end beyond the file)
is rejected as unsatisfiable with 416. -/
theorem range_validation_iff_unsatisfiable_witness :
    (streamHandler "a.mp4" (some "bytes=2-12") fsA).1 =
      .err 416 "Requested range not satisfiable." :=
  ((range_validation_iff_unsatisfiable "a.mp4" demoContent fsA "bytes=2-12" "2" "12" 2 12
    (by decide) (by decide) (by decide) (by decide) (by decide) (by decide)).1).mpr
    (by decide)

/-- C2 counterexample: the multi-range header `bytes=0-5,7-8` is not
rejected as malformed — the server's unanchored regex matches its first
range and a 206 is served from it. -/
theorem multiRange_served_206_counterexample :
    (streamHandler "a.mp4" (some "bytes=0-5,7-8") fsA).1 =
      .success ⟨206, some "bytes 0-5/10", some "bytes", 6, "video/mp4",
                [10, 20, 30, 40, 50, 60]⟩
    ∧ (streamHandler "a.mp4" (some "bytes=0-5,7-8") fsA).1
        ≠ .err 416 "Malformed Range header." := by
  decide

/-- C2 (amended): a present nonempty `Range` header in which the pattern
`bytes=<digits>-<digits?>` occurs nowhere as a substring — in
particular the suffix form `bytes=-500` — is rejected as malformed with
416; a header merely containing such a pattern (comma-separated
multi-range headers included) is instead served from its first match. -/
theorem range_no_match_rejected_416 (name : String) (content : List Nat)
    (fs : String → FsFile) (r : String)
    (h1 : nodeBasename name = name)
    (h2 : ALLOWED_EXTENSIONS.contains (lowerStr (nodeExtname name)) = true)
    (h3 : fs (mediaPathOf name) = .present content)
    (hr : r ≠ "") (hnm : rangeMatch r = none) :
    (streamHandler name (some r) fs).1 = .err 416 "Malformed Range header."
    ∧ rangeMatch "bytes=-500" = none := by
  constructor
  · rw [streamHandler_present_range name fs content r h1 h2 h3 hr,
      rangeResponse_noMatch _ _ _ _ hnm]
  · decide

/-- C2 witness: the suffix-form header `bytes=-500` on the ten-byte file
is rejected as malformed with 416. -/
theorem range_no_match_rejected_416_witness :
    (streamHandler "a.mp4" (some "bytes=-500") fsA).1
      = .err 416 "Malformed Range header."
    ∧ rangeMatch "bytes=-500" = none :=
  range_no_match_rejected_416 "a.mp4" demoContent fsA "bytes=-500"
    (by decide) (by decide) (by decide) (by decide) (by decide)

/-- C6 counterexample: a request with an invalid `Range` header does
touch the filesystem — for a present file, the malformed-range 416 is
produced only after the `stat` call appears in the operation log; and
when the file is absent, the same invalid header yields 404, so the
range error is not even detected before file access. -/
theorem range_error_touches_fs_counterexample :
    (streamHandler "a.mp4" (some "not-a-range") fsA).1
      = .err 416 "Malformed Range header."
    ∧ (streamHandler "a.mp4" (some "not-a-range") fsA).2 = [.statOp "videos/a.mp4"]
    ∧ (streamHandler "a.mp4" (some "not-a-range") fsA).2 ≠ []
    ∧ streamHandler "a.mp4" (some "not-a-range") (fun _ => .absent)
        = (.err 404 "Not found.", [.statOp "videos/a.mp4"]) := by
  decide

/-- C6 (amended): the pipeline order is name check, extension check,
`stat`, then range parsing and validation, short-circuiting at each
step: name and type errors are returned with no filesystem operation;
a stat failure is returned (404/500) after exactly the stat, before
the range is examined; and a malformed or unsatisfiable range is
rejected 416 after the stat but before any read stream is opened. -/
theorem pipeline_order_spec (name : String) (rh : Option String)
    (fs : String → FsFile) (content : List Nat) (r g1 g2 : String) :
    (nodeBasename name ≠ name →
      streamHandler name rh fs = (.err 400 "Invalid file name.", []))
    ∧ (nodeBasename name = name →
        ALLOWED_EXTENSIONS.contains (lowerStr (nodeExtname name)) = false →
        streamHandler name rh fs = (.err 415 "Unsupported media type.", []))
    ∧ (nodeBasename name = name →
        ALLOWED_EXTENSIONS.contains (lowerStr (nodeExtname name)) = true →
        fs (mediaPathOf name) = .absent →
        streamHandler name rh fs = (.err 404 "Not found.", [.statOp (mediaPathOf name)]))
    ∧ (nodeBasename name = name →
        ALLOWED_EXTENSIONS.contains (lowerStr (nodeExtname name)) = true →
        fs (mediaPathOf name) = .ioErr →
        streamHandler name rh fs = (.err 500 "Server error.", [.statOp (mediaPathOf name)]))
    ∧ (nodeBasename name = name →
        ALLOWED_EXTENSIONS.contains (lowerStr (nodeExtname name)) = true →
        fs (mediaPathOf name) = .present content →
        r ≠ "" → rangeMatch r = none →
        streamHandler name (some r) fs
          = (.err 416 "Malformed Range header.", [.statOp (mediaPathOf name)]))
    ∧ (nodeBasename name = name →
        ALLOWED_EXTENSIONS.contains (lowerStr (nodeExtname name)) = true →
        fs (mediaPathOf name) = .present content →
        rangeMatch r = some (g1, g2) →
        ((parseDigits g1 : Int) ≥ (content.length : Int)
          ∨ (if g2 = "" then (content.length : Int) - 1 else (parseDigits g2 : Int))
              ≥ (content.length : Int)
          ∨ (parseDigits g1 : Int)
              > (if g2 = "" then (content.length : Int) - 1 else (parseDigits g2 : Int))) →
        streamHandler name (some r) fs
          = (.err 416 "Requested range not satisfiable.", [.statOp (mediaPathOf name)])) := by
  refine ⟨fun h => streamHandler_badName name rh fs h,
    fun h1 h2 => streamHandler_badExt name rh fs h1 h2,
    fun h1 h2 h3 => streamHandler_enoent name rh fs h1 h2 h3,
    fun h1 h2 h3 => streamHandler_ioErr name rh fs h1 h2 h3,
    fun h1 h2 h3 hr hnm => ?_,
    fun h1 h2 h3 hm hcond => ?_⟩
  · rw [streamHandler_present_range name fs content r h1 h2 h3 hr,
      rangeResponse_noMatch _ _ _ _ hnm]
  · have hrne : r ≠ "" := by
      intro hEq
      rw [hEq] at hm
      exact Option.noConfusion hm
    rw [streamHandler_present_range name fs content r h1 h2 h3 hrne,
      rangeResponse_unsat _ _ _ _ g1 g2 hm hcond]

/-- C6 (amended) witness: on the ten-byte file, a garbage header and an
inverted range each produce 416 with the log holding exactly the stat. -/
theorem pipeline_order_spec_witness :
    streamHandler "a.mp4" (some "zzz") fsA
      = (.err 416 "Malformed Range header.", [.statOp "videos/a.mp4"])
    ∧ streamHandler "a.mp4" (some "bytes=5-2") fsA
      = (.err 416 "Requested range not satisfiable.", [.statOp "videos/a.mp4"]) := by
  refine ⟨?_, ?_⟩
  · rw [(pipeline_order_spec "a.mp4" (some "zzz") fsA demoContent "zzz" "" "").2.2.2.2.1
      (by decide) (by decide) (by decide) (by decide) (by decide)]
    decide
  · rw [(pipeline_order_spec "a.mp4" none fsA demoContent "bytes=5-2" "5" "2").2.2.2.2.2
      (by decide) (by decide) (by decide) (by decide) (by decide)]
    decide

/-- C10 counterexample: an empty (but present) `Range` header value on
an empty file is not rejected with 416 — JavaScript's `if (range)`
treats it as absent and the server answers 200. -/
theorem empty_range_header_counterexample :
    (streamHandler "e.mp4" (some "") fsEmpty).1 =
      .success ⟨200, none, none, 0, "video/mp4", []⟩
    ∧ respStatus (streamHandler "e.mp4" (some "") fsEmpty).1 ≠ 416 := by
  decide

/-- C10 (amended): for an existing allowed file of size zero, every
present nonempty `Range` header is rejected with 416 (malformed, or
unsatisfiable since `start ≥ 0 = fileSize` always holds), so no 206 is
possible; a request with no `Range` header returns 200 with
`Content-Length = 0` and an empty body; an empty header value behaves
as an absent header. -/
theorem empty_file_range_spec (name : String) (fs : String → FsFile) (r : String)
    (h1 : nodeBasename name = name)
    (h2 : ALLOWED_EXTENSIONS.contains (lowerStr (nodeExtname name)) = true)
    (h3 : fs (mediaPathOf name) = .present [])
    (hr : r ≠ "") :
    ((streamHandler name (some r) fs).1 = .err 416 "Malformed Range header."
      ∨ (streamHandler name (some r) fs).1 = .err 416 "Requested range not satisfiable.")
    ∧ streamHandler name none fs =
        (.success ⟨200, none, none, 0, getContentType name, []⟩,
         [.statOp (mediaPathOf name), .openOp (mediaPathOf name)])
    ∧ streamHandler name (some "") fs =
        (.success ⟨200, none, none, 0, getContentType name, []⟩,
         [.statOp (mediaPathOf name), .openOp (mediaPathOf name)]) := by
  refine ⟨?_, ?_, ?_⟩
  · rw [streamHandler_present_range name fs [] r h1 h2 h3 hr]
    cases hm : rangeMatch r with
    | none =>
      left
      rw [rangeResponse_noMatch _ _ _ _ hm]
    | some g =>
      obtain ⟨g1, g2⟩ := g
      right
      rw [rangeResponse_unsat _ _ _ _ g1 g2 hm (by left ; simp)]
  · rw [streamHandler_present_full name fs [] none h1 h2 h3 (Or.inl rfl)]
    rfl
  · rw [streamHandler_present_full name fs [] (some "") h1 h2 h3 (Or.inr rfl)]
    rfl

/-- C10 (amended) witness: the empty file with `bytes=0-` is rejected
416, and with no header answers 200 with an empty body. -/
theorem empty_file_range_spec_witness :
    ((streamHandler "e.mp4" (some "bytes=0-") fsEmpty).1
        = .err 416 "Malformed Range header."
      ∨ (streamHandler "e.mp4" (some "bytes=0-") fsEmpty).1
        = .err 416 "Requested range not satisfiable.")
    ∧ streamHandler "e.mp4" none fsEmpty =
        (.success ⟨200, none, none, 0, "video/mp4", []⟩,
         [.statOp "videos/e.mp4", .openOp "videos/e.mp4"]) := by
  have h := empty_file_range_spec "e.mp4" fsEmpty "bytes=0-"
    (by decide) (by decide) (by decide) (by decide)
  refine ⟨h.1, ?_⟩
  rw [h.2.1]
  decide

/-- C9: for every partition of `[0, N)` into consecutive nonempty
intervals `[0, k)`, `[k, m)`, `[m, N)`, the three range requests
`bytes=0-(k-1)`, `bytes=k-(m-1)`, `bytes=m-(N-1)` all succeed with 206
and concatenating their bodies reproduces the full file content exactly
— no missing, duplicated, or reordered bytes at the boundaries. -/
theorem range_concat_partition_spec (name : String) (content : List Nat)
    (fs : String → FsFile) (k m : Nat)
    (h1 : nodeBasename name = name)
    (h2 : ALLOWED_EXTENSIONS.contains (lowerStr (nodeExtname name)) = true)
    (h3 : fs (mediaPathOf name) = .present content)
    (hk : 0 < k) (hkm : k < m) (hmN : m < content.length) :
    respStatus (streamHandler name
      (some ("bytes=" ++ natDigits 0 ++ "-" ++ natDigits (k - 1))) fs).1 = 206
    ∧ respStatus (streamHandler name
      (some ("bytes=" ++ natDigits k ++ "-" ++ natDigits (m - 1))) fs).1 = 206
    ∧ respStatus (streamHandler name
      (some ("bytes=" ++ natDigits m ++ "-" ++ natDigits (content.length - 1))) fs).1 = 206
    ∧ respBody (streamHandler name
        (some ("bytes=" ++ natDigits 0 ++ "-" ++ natDigits (k - 1))) fs).1
      ++ respBody (streamHandler name
        (some ("bytes=" ++ natDigits k ++ "-" ++ natDigits (m - 1))) fs).1
      ++ respBody (streamHandler name
        (some ("bytes=" ++ natDigits m ++ "-" ++ natDigits (content.length - 1))) fs).1
      = content := by
  have hseg : ∀ a b : Nat, a ≤ b → b < content.length →
      streamHandler name (some ("bytes=" ++ natDigits a ++ "-" ++ natDigits b)) fs
        = (.success ⟨206, some s!"bytes {a}-{b}/{content.length}", some "bytes", b - a + 1,
                     getContentType name, (content.drop a).take (b - a + 1)⟩,
           [.statOp (mediaPathOf name), .openOp (mediaPathOf name)]) := by
    intro a b hab hbN
    have hm0 := rangeMatch_wellFormed (natDigits a) (natDigits b)
      (natDigits_spec a).1 (natDigits_spec a).2.1 (natDigits_spec b).2.1
    have hbne : ¬ natDigits b = "" := by
      intro hEq
      have h0 := (natDigits_spec b).1
      rw [hEq] at h0
      exact h0 rfl
    have hbI : (if natDigits b = "" then ((content.length : Nat) : Int) - 1
        else ((parseDigits (natDigits b) : Nat) : Int)) = ((b : Nat) : Int) := by
      rw [if_neg hbne, (natDigits_spec b).2.2]
    rw [streamHandler_present_range name fs content _ h1 h2 h3 (bytesHeader_ne_empty _ _),
      rangeResponse_ok (mediaPathOf name) content (getContentType name) _ _ _ a b hm0
        (natDigits_spec a).2.2 hbI hab hbN]
  have e1 := hseg 0 (k - 1) (by omega) (by omega)
  have e2 := hseg k (m - 1) (by omega) (by omega)
  have e3 := hseg m (content.length - 1) (by omega) (by omega)
  rw [e1, e2, e3]
  refine ⟨rfl, rfl, rfl, ?_⟩
  simp only [respBody]
  have ht1 : k - 1 - 0 + 1 = k := by omega
  have ht2 : m - 1 - k + 1 = m - k := by omega
  have ht3 : content.length - 1 - m + 1 = content.length - m := by omega
  rw [ht1, ht2, ht3, List.drop_zero, List.append_assoc]
  have hA : (content.drop m).take (content.length - m) = content.drop m := by
    have hl : content.length - m = (content.drop m).length := (List.length_drop m content).symm
    rw [hl, List.take_length]
  have hdd : (content.drop k).drop (m - k) = content.drop m := by
    rw [List.drop_drop]
    congr 1
    omega
  rw [hA, ← hdd, List.take_append_drop, List.take_append_drop]

/-- C9 witness: the ten-byte file split at `k = 3`, `m = 6`. -/
theorem range_concat_partition_spec_witness :
    respBody (streamHandler "a.mp4" (some "bytes=0-2") fsA).1
      ++ respBody (streamHandler "a.mp4" (some "bytes=3-5") fsA).1
      ++ respBody (streamHandler "a.mp4" (some "bytes=6-9") fsA).1
      = demoContent := by
  have h := range_concat_partition_spec "a.mp4" demoContent fsA 3 6
    (by decide) (by decide) (by decide) (by decide) (by decide) (by decide)
  exact h.2.2.2

lemma charListLe_total : ∀ xs ys : List Char,
    charListLe xs ys = true ∨ charListLe ys xs = true
  | [], _ => Or.inl rfl
  | _ :: _, [] => Or.inr rfl
  | x :: xs, y :: ys => by
    by_cases h1 : x.toNat < y.toNat
    · left
      simp [charListLe, h1]
    · by_cases h2 : y.toNat < x.toNat
      · right
        simp [charListLe, h2]
      · rcases charListLe_total xs ys with h | h
        · left
          simp [charListLe, h1, h2, h]
        · right
          simp [charListLe, h1, h2, h]

lemma charListLe_trans : ∀ xs ys zs : List Char,
    charListLe xs ys = true → charListLe ys zs = true → charListLe xs zs = true
  | [], _, _, _, _ => rfl
  | _ :: _, [], _, h, _ => by simp [charListLe] at h
  | _ :: _, _ :: _, [], _, h2 => by simp [charListLe] at h2
  | x :: xs, y :: ys, z :: zs, h1, h2 => by
    simp only [charListLe] at h1 h2 ⊢
    by_cases a1 : x.toNat < y.toNat
    · by_cases a2 : y.toNat < z.toNat
      · rw [if_pos (by omega)]
      · by_cases a4 : z.toNat < y.toNat
        · rw [if_neg a2, if_pos a4] at h2
          simp at h2
        · rw [if_pos (by omega)]
    · by_cases a3 : y.toNat < x.toNat
      · rw [if_neg a1, if_pos a3] at h1
        simp at h1
      · rw [if_neg a1, if_neg a3] at h1
        by_cases a2 : y.toNat < z.toNat
        · rw [if_pos (by omega)]
        · by_cases a4 : z.toNat < y.toNat
          · rw [if_neg a2, if_pos a4] at h2
            simp at h2
          · rw [if_neg a2, if_neg a4] at h2
            rw [if_neg (by omega), if_neg (by omega)]
            exact charListLe_trans xs ys zs h1 h2

/-- C8: the listing treats an absent media root as an empty list with a
successful (200) response while still returning the other root's
regular files with allowed extensions, sorted ascending (the output is
a sorted permutation of the filtered regular-file names); any other
directory-read error fails the whole listing with 500 and no partial
results for either root. -/
theorem listMedia_spec (vr pr : ReaddirResult) (ve pe : List Dirent) :
    (listMedia .enoent (.ok pe)
        = .success [] (sortStrings (filterMedia IMAGE_EXTENSIONS pe)))
    ∧ (listMedia (.ok ve) .enoent
        = .success (sortStrings (filterMedia VIDEO_EXTENSIONS ve)) [])
    ∧ (sortStrings (filterMedia IMAGE_EXTENSIONS pe)).Sorted (fun a b => strLe a b = true)
    ∧ (sortStrings (filterMedia IMAGE_EXTENSIONS pe)).Perm (filterMedia IMAGE_EXTENSIONS pe)
    ∧ (sortStrings (filterMedia VIDEO_EXTENSIONS ve)).Sorted (fun a b => strLe a b = true)
    ∧ (sortStrings (filterMedia VIDEO_EXTENSIONS ve)).Perm (filterMedia VIDEO_EXTENSIONS ve)
    ∧ (vr = .ioErr ∨ pr = .ioErr →
        listMedia vr pr = .failure 500 "Could not read media folders.") := by
  haveI hTot : IsTotal String (fun a b => strLe a b = true) :=
    ⟨fun a b => charListLe_total a.data b.data⟩
  haveI hTrans : IsTrans String (fun a b => strLe a b = true) :=
    ⟨fun a b c => charListLe_trans a.data b.data c.data⟩
  refine ⟨rfl, rfl,
    List.sorted_insertionSort (fun a b => strLe a b = true) (filterMedia IMAGE_EXTENSIONS pe),
    List.perm_insertionSort (fun a b => strLe a b = true) (filterMedia IMAGE_EXTENSIONS pe),
    List.sorted_insertionSort (fun a b => strLe a b = true) (filterMedia VIDEO_EXTENSIONS ve),
    List.perm_insertionSort (fun a b => strLe a b = true) (filterMedia VIDEO_EXTENSIONS ve), ?_⟩
  rintro (rfl | rfl)
  · cases pr <;> rfl
  · cases vr <;> rfl

/-- C8 witness: an absent video root with a picture root holding two
images (unsorted), a subdirectory, and a text file lists
`{videos: [], pictures: ["a.jpg", "b.jpg"]}`; an erroring video root
fails the whole listing with 500. -/
theorem listMedia_spec_witness :
    listMedia .enoent
        (.ok [⟨"b.jpg", true⟩, ⟨"a.JPG", true⟩, ⟨"sub", false⟩, ⟨"c.txt", true⟩])
      = .success [] ["a.JPG", "b.jpg"]
    ∧ listMedia .ioErr (.ok []) = .failure 500 "Could not read media folders." := by
  have h := listMedia_spec .ioErr (.ok [])
    [] [⟨"b.jpg", true⟩, ⟨"a.JPG", true⟩, ⟨"sub", false⟩, ⟨"c.txt", true⟩]
  refine ⟨?_, h.2.2.2.2.2.2 (Or.inl rfl)⟩
  rw [h.1]
  decide

end VideoServer
